import Mathlib

/-!
Verification of the portfolio repository's functional core against its
natural-language specification.

The development shallowly embeds the pure parts of the TypeScript source:

* `src/lib/validation.ts` — the contact-form validator;
* `src/lib/performance.ts` — device-capability detection and quality presets;
* `src/hooks/usePerformance.ts` — the adaptive-quality FPS step;
* `src/app/api/github/route.ts` — the GitHub stats proxy handler
  (status mapping, star/language aggregation, contribution streaks);
* the dev.to blog proxy handler (status mapping, article transform);
* `src/components/three/NetworkGraph.tsx` — the fixed scene graph and the
  node/connection visibility computation.

Strings are modelled with Lean `String` (lexicographic order standing in for
JavaScript code-unit comparison and `localeCompare`, which agree on the ASCII
`YYYY-MM-DD` dates involved); user-typed text fields are modelled as
`List Char`; JavaScript numbers appearing as counts are `Nat`/`Int` and
`deviceMemory` (which may be fractional, e.g. 0.25) is `ℚ`.  An outbound
`fetch` is modelled by the `Fetched` type: it can throw, return a non-OK
response with a status code, or return an OK response with a typed body.
-/

namespace Portfolio


/-! ## Contact form validation (`src/lib/validation.ts`) -/

/-- A whitespace character, as matched by JavaScript `String.prototype.trim`
(restricted to the whitespace characters representable here). -/
def isSpaceChar (c : Char) : Bool := c.isWhitespace

/-- JavaScript `String.prototype.trim`: strip whitespace from both ends. -/
def jsTrim (s : List Char) : List Char :=
  ((s.dropWhile isSpaceChar).reverse.dropWhile isSpaceChar).reverse

/-- One step of a DFA recognising the email regex
`/^[^\s@]+@[^\s@]+\.[^\s@]+$/` from `validateContactForm`.
States: 0 start; 1 inside the local part; 2 just after `@`; 3 inside the
domain with no usable separator dot yet; 4 just after a separator dot;
5 accepting (separator dot seen and followed by a character); 6 dead. -/
def emailStep (st : Nat) (c : Char) : Nat :=
  if c.isWhitespace then 6
  else if c = '@' then (if st = 1 then 2 else 6)
  else
    match st with
    | 0 => 1
    | 1 => 1
    | 2 => 3
    | 3 => if c = '.' then 4 else 3
    | 4 => 5
    | 5 => 5
    | _ => 6

/-- Run of `emailRegex.test data.email`: the DFA for
`/^[^\s@]+@[^\s@]+\.[^\s@]+$/` over the string. -/
def emailRegexTest (s : List Char) : Bool :=
  s.foldl emailStep 0 == 5

/-- The `ContactFormData` triple filled in by the user. -/
structure ContactFormData where
  name : List Char
  email : List Char
  message : List Char

/-- The per-field `errors` object of `ContactFormValidation`; a field is
`none` when the corresponding key is absent from the object. -/
structure ContactFormErrors where
  name : Option String
  email : Option String
  message : Option String
deriving DecidableEq

/-- Return type of `validateContactForm`. -/
structure ContactFormValidation where
  isValid : Bool
  errors : ContactFormErrors
deriving DecidableEq

def nameError : String := "Name must be at least 2 characters"

def emailError : String := "Please enter a valid email address"

def messageError : String := "Message must be at least 10 characters"

/-- Embedding of `validateContactForm` from `src/lib/validation.ts`.  Each guard mirrors
the source: `!data.name || data.name.trim().length < 2` (the JavaScript
falsiness test on a string is the emptiness test), then the email regex,
then `!data.message || data.message.trim().length < 10`; `isValid` is the
emptiness of the `errors` object. -/
def validateContactForm (data : ContactFormData) : ContactFormValidation :=
  let nameErr : Option String :=
    if data.name.isEmpty || (jsTrim data.name).length < 2 then some nameError else none
  let emailErr : Option String :=
    if data.email.isEmpty || !(emailRegexTest data.email) then some emailError else none
  let messageErr : Option String :=
    if data.message.isEmpty || (jsTrim data.message).length < 10 then some messageError
    else none
  { isValid := nameErr == none && emailErr == none && messageErr == none
    errors := { name := nameErr, email := emailErr, message := messageErr } }

/-! ## Performance utilities (`src/lib/performance.ts`) -/

/-- The three quality levels of `QualityLevel`. -/
inductive QualityLevel where
  | high
  | medium
  | low
deriving DecidableEq

/-- The `PerformanceConfig` record from `src/lib/performance.ts`. -/
structure PerformanceConfig where
  quality : QualityLevel
  maxNodes : Nat
  geometryDetail : Nat
  enableAnimations : Bool
  enableGlow : Bool
  targetFPS : Nat
deriving DecidableEq

/-- The `QUALITY_PRESETS` record, keyed by quality level. -/
def QUALITY_PRESETS : QualityLevel → PerformanceConfig
  | .high =>
    { quality := .high, maxNodes := 8, geometryDetail := 16,
      enableAnimations := true, enableGlow := true, targetFPS := 60 }
  | .medium =>
    { quality := .medium, maxNodes := 6, geometryDetail := 12,
      enableAnimations := true, enableGlow := false, targetFPS := 30 }
  | .low =>
    { quality := .low, maxNodes := 4, geometryDetail := 8,
      enableAnimations := false, enableGlow := false, targetFPS := 30 }

/-- The browser facts `detectDeviceCapability` reads: whether a `window`
object exists, whether a WebGL context can be created, the values of
`navigator.hardwareConcurrency` and `navigator.deviceMemory` (absent when
`undefined`), and whether `navigator.userAgent` matches the mobile pattern
`/Android|webOS|iPhone|iPad|iPod|BlackBerry|IEMobile|Opera Mini/i`. -/
structure DeviceEnv where
  hasWindow : Bool
  webglAvailable : Bool
  hardwareConcurrency : Option Nat
  deviceMemory : Option ℚ
  userAgentIsMobile : Bool

/-- Value of `navigator.hardwareConcurrency || 2`: the default applies when the value
is `undefined` or the falsy number 0. -/
def coresOf (env : DeviceEnv) : Nat :=
  match env.hardwareConcurrency with
  | none => 2
  | some n => if n = 0 then 2 else n

/-- Value of `navigator.deviceMemory || 4`: the default applies when the value is
`undefined` or the falsy number 0. -/
def memoryOf (env : DeviceEnv) : ℚ :=
  match env.deviceMemory with
  | none => 4
  | some m => if m = 0 then 4 else m

/-- Embedding of `detectDeviceCapability` from `src/lib/performance.ts`. -/
def detectDeviceCapability (env : DeviceEnv) : QualityLevel :=
  if env.hasWindow = false then .medium
  else if env.webglAvailable = false then .low
  else
    let cores := coresOf env
    let memory := memoryOf env
    if env.userAgentIsMobile = true ∨ cores ≤ 2 ∨ memory < 4 then .low
    else if 8 ≤ cores ∧ 8 ≤ memory then .high
    else .medium

/-- Embedding of `getPerformanceConfig` from `src/lib/performance.ts`; the optional
argument defaults (via `quality || detectDeviceCapability()`) to the
detected capability. -/
def getPerformanceConfig (env : DeviceEnv) (quality : Option QualityLevel) :
    PerformanceConfig :=
  let detectedQuality :=
    match quality with
    | some q => q
    | none => detectDeviceCapability env
  QUALITY_PRESETS detectedQuality

/-! ## Adaptive quality (`useAdaptiveQuality` in `src/hooks/usePerformance.ts`) -/

/-- The once-per-second adjustment performed by `useAdaptiveQuality` when a
second has elapsed: it looks at the sampled frame count and the current
quality and possibly degrades the quality. -/
def adaptiveQualityStep (frameCount : Nat) (quality : QualityLevel) : QualityLevel :=
  if frameCount < 20 ∧ quality ≠ .low then .low
  else if frameCount < 30 ∧ quality = .high then .medium
  else quality

/-- Rank in the order low < medium < high. -/
def qualityRank : QualityLevel → Nat
  | .low => 0
  | .medium => 1
  | .high => 2

/-! ## Network graph scene (`src/components/three/NetworkGraph.tsx`) -/

/-- A hand-authored scene node, `NodeData`. -/
structure NodeData where
  id : String
  position : ℚ × ℚ × ℚ
  connections : List String
  label : String
deriving DecidableEq

/-- The fixed `NETWORK_NODES` list. -/
def NETWORK_NODES : List NodeData :=
  [ { id := "api-gateway", position := (0, 1.5, 0),
      connections := ["auth", "users", "data"], label := "API Gateway" },
    { id := "auth", position := (-2, 0.5, 0.5),
      connections := ["users", "cache"], label := "Auth Service" },
    { id := "users", position := (2, 0.5, -0.5),
      connections := ["db", "cache"], label := "User Service" },
    { id := "data", position := (0, 0, 1),
      connections := ["db", "queue"], label := "Data Service" },
    { id := "db", position := (-1, -1.5, 0),
      connections := ["cache"], label := "Database" },
    { id := "cache", position := (1, -1, 0.5),
      connections := [], label := "Cache" },
    { id := "queue", position := (2, -1.5, -0.5),
      connections := ["workers"], label := "Message Queue" },
    { id := "workers", position := (0, -2, 0),
      connections := [], label := "Workers" } ]

/-- A rendered connection line; `stop` stands for the source's `end` field
(a reserved word in Lean). -/
structure ConnectionSpec where
  start : ℚ × ℚ × ℚ
  stop : ℚ × ℚ × ℚ
  key : String
deriving DecidableEq

/-- The `visibleNodes` memo: `NETWORK_NODES.slice(0, performanceConfig.maxNodes)`. -/
def visibleNodesOf (performanceConfig : PerformanceConfig) : List NodeData :=
  NETWORK_NODES.take performanceConfig.maxNodes

/-- The `connections` memo: for each visible node and each of its declared
connection targets, a line is produced only when the target id is also
among the visible ids and its node is found among the visible nodes. -/
def connectionsOf (visibleNodes : List NodeData) : List ConnectionSpec :=
  visibleNodes.flatMap fun node =>
    node.connections.filterMap fun targetId =>
      if (visibleNodes.map (fun n => n.id)).contains targetId then
        match visibleNodes.find? (fun n => n.id == targetId) with
        | some targetNode =>
          some { start := node.position, stop := targetNode.position,
                 key := node.id ++ "-" ++ targetId }
        | none => none
      else none

/-! ## Outbound fetch model and the two proxy handlers
(`src/app/api/github/route.ts` and the dev.to blog route) -/

/-- Outcome of an outbound `fetch`: the promise can reject (`throws`), or
resolve to a non-OK response carrying a status code (`fail`), or resolve to
an OK response whose JSON body parses to `α` (`ok`). -/
inductive Fetched (α : Type) where
  | throws : Fetched α
  | fail (status : Nat) : Fetched α
  | ok (body : α) : Fetched α
deriving DecidableEq

/-- The `GitHubUser` fields used by the handler. -/
structure GitHubUser where
  public_repos : Nat
  followers : Nat
  following : Nat
deriving DecidableEq

/-- The `GitHubRepo` fields used by the handler; `language` is `string | null`. -/
structure GitHubRepo where
  stargazers_count : Nat
  language : Option String
deriving DecidableEq

/-- One entry of the contributions list from the contributions API. -/
structure Contribution where
  date : String
  count : Int
deriving DecidableEq

/-- The contributions API body: an optional `total` record (year → count)
and an optional `contributions` array, mirroring the handler's truthiness
checks `if (allYearsData.total)` and `if (allYearsData.contributions)`. -/
structure ContribData where
  total : Option (List (String × Int))
  contributions : Option (List Contribution)
deriving DecidableEq

/-- One `topLanguages` entry, `{ name, count }`. -/
structure LanguageEntry where
  name : String
  count : Nat
deriving DecidableEq

/-- The JSON success payload of the GitHub handler. -/
structure GitHubStats where
  publicRepos : Nat
  followers : Nat
  following : Nat
  totalStars : Nat
  topLanguages : List LanguageEntry
  totalContributions : Int
  currentStreak : Nat
  longestStreak : Nat
deriving DecidableEq

/-- A `NextResponse.json` body: either `{error}` or a success payload. -/
inductive ApiBody (α : Type) where
  | err (msg : String)
  | payload (a : α)
deriving DecidableEq

/-- A `NextResponse` with its HTTP status (200 when unspecified). -/
structure ApiResponse (α : Type) where
  status : Nat
  body : ApiBody α
deriving DecidableEq

/-- Whether a response body is a JSON `{error}` body. -/
def ApiBody.isErr {α : Type} : ApiBody α → Prop
  | .err _ => True
  | .payload _ => False

/-- Star total `repos.reduce((sum, repo) => sum + repo.stargazers_count, 0)`. -/
def totalStarsOf (repos : List GitHubRepo) : Nat :=
  repos.foldl (fun sum repo => sum + repo.stargazers_count) 0

/-- The update `langCount[lang] = (langCount[lang] || 0) + 1` on the insertion-ordered
`langCount` object, modelled as an association list. -/
def bumpLang (langCount : List (String × Nat)) (lang : String) : List (String × Nat) :=
  if langCount.any (fun p => p.1 == lang) then
    langCount.map (fun p => if p.1 = lang then (p.1, p.2 + 1) else p)
  else langCount ++ [(lang, 1)]

/-- One iteration of the `repos.forEach` loop: a repo participates only when
`repo.language` is truthy (non-null and non-empty). -/
def langStep (langCount : List (String × Nat)) (repo : GitHubRepo) :
    List (String × Nat) :=
  match repo.language with
  | none => langCount
  | some lang => if lang = "" then langCount else bumpLang langCount lang

/-- The `repos.forEach` loop building the `langCount` object. -/
def langCountOf (repos : List GitHubRepo) : List (String × Nat) :=
  repos.foldl langStep []

/-- Top languages `Object.entries(langCount).map(...).sort((a, b) => b.count - a.count)
.slice(0, 5)`: sort descending by count (stably, as V8 does) and keep the
first five. -/
def topLanguagesOf (repos : List GitHubRepo) : List LanguageEntry :=
  (((langCountOf repos).map (fun p => LanguageEntry.mk p.1 p.2)).mergeSort
    (fun a b => decide (b.count ≤ a.count))).take 5

/-- The backward `currentStreak` loop, expressed on the reversed list (its
head is the entry the loop visits first): a positive count extends the
streak, a non-positive count dated today is skipped, and any other
non-positive count breaks the loop. -/
def backwardStreak (today : String) : List Contribution → Nat
  | [] => 0
  | c :: rest =>
    if 0 < c.count then backwardStreak today rest + 1
    else if c.date = today then backwardStreak today rest
    else 0

/-- The forward `longestStreak` loop with its `streak` and `longestStreak`
accumulators. -/
def longestStreakLoop : List Contribution → Nat → Nat → Nat
  | [], _, longest => longest
  | c :: rest, streak, longest =>
    if 0 < c.count then longestStreakLoop rest (streak + 1) (max longest (streak + 1))
    else longestStreakLoop rest 0 longest

/-- The `validContribs` list: drop entries dated after today, then sort ascending by
date (`localeCompare`, modelled by the lexicographic order on `String`). -/
def validContribsOf (today : String) (contributions : List Contribution) :
    List Contribution :=
  (contributions.filter (fun c => decide (c.date ≤ today))).mergeSort
    (fun a b => decide (a.date ≤ b.date))

/-- The handler's `currentStreak` for a contributions list. -/
def currentStreakOf (today : String) (contributions : List Contribution) : Nat :=
  backwardStreak today (validContribsOf today contributions).reverse

/-- The handler's `longestStreak` for a contributions list. -/
def longestStreakOf (today : String) (contributions : List Contribution) : Nat :=
  longestStreakLoop (validContribsOf today contributions) 0 0

/-- Contribution total `Object.values(allYearsData.total).reduce((sum, count) => sum + count, 0)`
when `total` is present, else the initial 0. -/
def totalContributionsOf (d : ContribData) : Int :=
  match d.total with
  | none => 0
  | some entries => entries.foldl (fun sum e => sum + e.2) 0

/-- The contributions block of the handler: a failed or non-OK contributions
fetch leaves all three accumulators at 0 (the inner `try`/`catch` absorbs
it); an OK response yields the total and the two streaks. -/
def contribStatsOf (today : String) : Fetched ContribData → Int × Nat × Nat
  | .ok d =>
    (totalContributionsOf d,
      match d.contributions with
      | none => (0, 0)
      | some cs => (currentStreakOf today cs, longestStreakOf today cs))
  | _ => (0, 0, 0)

/-- The GitHub proxy handler `GET` of `src/app/api/github/route.ts`, as a
function of the request's `username` query parameter (`none` when absent),
the current date string, and the outcomes of its three outbound fetches
(user, repos, contributions). -/
def githubGET (username : Option String) (today : String)
    (userFetch : Fetched GitHubUser) (reposFetch : Fetched (List GitHubRepo))
    (contribFetch : Fetched ContribData) : ApiResponse GitHubStats :=
  match username with
  | none => { status := 400, body := .err "Username required" }
  | some u =>
    if u = "" then { status := 400, body := .err "Username required" }
    else
      match userFetch with
      | .throws => { status := 500, body := .err "Failed to fetch GitHub data" }
      | .fail status =>
        if status = 403 then
          { status := 429, body := .err "GitHub API rate limit exceeded" }
        else if status = 401 then
          { status := 401, body := .err "Invalid GitHub token" }
        else if status = 404 then
          { status := 404, body := .err "User not found" }
        else
          { status := 500, body := .err "Failed to fetch GitHub data" }
      | .ok userData =>
        match reposFetch with
        | .throws => { status := 500, body := .err "Failed to fetch GitHub data" }
        | rf =>
          let repos : List GitHubRepo :=
            match rf with
            | .ok r => r
            | _ => []
          let stats := contribStatsOf today contribFetch
          { status := 200,
            body := .payload
              { publicRepos := userData.public_repos
                followers := userData.followers
                following := userData.following
                totalStars := totalStarsOf repos
                topLanguages := topLanguagesOf repos
                totalContributions := stats.1
                currentStreak := stats.2.1
                longestStreak := stats.2.2 } }

/-- The dev.to API article shape `DevToArticle` (snake_case). -/
structure DevToArticle where
  id : Nat
  title : String
  description : String
  url : String
  cover_image : Option String
  social_image : Option String
  published_at : String
  reading_time_minutes : Nat
  tag_list : List String
deriving DecidableEq

/-- The camelCase `Blog` shape returned to the front end. -/
structure Blog where
  id : Nat
  title : String
  description : String
  url : String
  coverImage : Option String
  socialImage : Option String
  publishedAt : String
  readingTimeMinutes : Nat
  tags : List String
deriving DecidableEq

/-- Embedding of `transformArticle`: snake_case → camelCase, field for field. -/
def transformArticle (article : DevToArticle) : Blog :=
  { id := article.id
    title := article.title
    description := article.description
    url := article.url
    coverImage := article.cover_image
    socialImage := article.social_image
    publishedAt := article.published_at
    readingTimeMinutes := article.reading_time_minutes
    tags := article.tag_list }

/-- The `{ blogs }` success payload of the dev.to handler. -/
structure BlogList where
  blogs : List Blog
deriving DecidableEq

/-- The dev.to proxy handler `GET`, as a function of the `username` query
parameter and the outcome of its single outbound fetch. -/
def devtoGET (username : Option String)
    (articlesFetch : Fetched (List DevToArticle)) : ApiResponse BlogList :=
  match username with
  | none => { status := 400, body := .err "Username required" }
  | some u =>
    if u = "" then { status := 400, body := .err "Username required" }
    else
      match articlesFetch with
      | .throws => { status := 500, body := .err "Failed to fetch blog posts" }
      | .fail status =>
        if status = 404 then { status := 404, body := .err "User not found" }
        else if status = 429 then { status := 429, body := .err "Rate limit exceeded" }
        else { status := 500, body := .err "Failed to fetch blog posts" }
      | .ok articles =>
        { status := 200, body := .payload { blogs := (articles.take 3).map transformArticle } }

/-! ## Star and language aggregation of the GitHub handler -/

/-- Number of repos whose `language` is exactly `some lang`. -/
def reposWithLanguage (repos : List GitHubRepo) (lang : String) : Nat :=
  (repos.filter (fun r => decide (r.language = some lang))).length

/-- Invariant of the `langCount`-building loop: after processing `processed`,
the accumulator has pairwise-distinct keys; every entry has a truthy key, a
positive count, and the exact repo count of its key; and every truthy
language occurring in `processed` has an entry. -/
def LangInv (processed : List GitHubRepo) (acc : List (String × Nat)) : Prop :=
  (acc.map Prod.fst).Nodup
  ∧ (∀ p ∈ acc, p.1 ≠ "" ∧ 0 < p.2 ∧ p.2 = reposWithLanguage processed p.1)
  ∧ (∀ lang, lang ≠ "" → 0 < reposWithLanguage processed lang →
      lang ∈ acc.map Prod.fst)

/-! ## Contribution streaks of the GitHub handler -/

/-- Every entry of the run has a positive contribution count. -/
def allPositive (t : List Contribution) : Prop := ∀ c ∈ t, 0 < c.count

/-- Declarative reading of the backward scan: in the maximal trailing
segment (scanned from the end of `v`) whose entries either have positive
count or are dated today, count the positive entries. -/
def trailingScanCount (today : String) (v : List Contribution) : Nat :=
  ((v.reverse.takeWhile
      (fun c => decide (0 < c.count) || decide (c.date = today))).countP
    (fun c => decide (0 < c.count)))

/-! ## Lemmas and theorems -/

lemma jsTrim_nil : jsTrim [] = [] := rfl

lemma emailRegexTest_nil : emailRegexTest [] = false := rfl

/-- The explicit emptiness test in `!data.name` is subsumed by the trimmed
length check. -/
lemma name_guard_iff (n : List Char) :
    (n.isEmpty || decide ((jsTrim n).length < 2)) = true ↔ ¬ 2 ≤ (jsTrim n).length := by
  cases n with
  | nil => simp [jsTrim]
  | cons c cs => simp [List.isEmpty]

/-- The explicit emptiness test in `!data.email` is subsumed by the regex
test (the empty string does not match the regex). -/
lemma email_guard_iff (e : List Char) :
    (e.isEmpty || !(emailRegexTest e)) = true ↔ ¬ emailRegexTest e = true := by
  cases e with
  | nil => simp [emailRegexTest_nil]
  | cons c cs => simp [List.isEmpty]

lemma message_guard_iff (m : List Char) :
    (m.isEmpty || decide ((jsTrim m).length < 10)) = true ↔ ¬ 10 ≤ (jsTrim m).length := by
  cases m with
  | nil => simp [jsTrim]
  | cons c cs => simp [List.isEmpty]

/-- C1: `validateContactForm` accepts (returns `isValid = true` with an empty
`errors` object) exactly when the trimmed name has length ≥ 2, the email
matches the regex `/^[^\s@]+@[^\s@]+\.[^\s@]+$/`, and the trimmed message
has length ≥ 10; each failing check contributes exactly its fixed per-field
error string, and `isValid` is `false` exactly when the `errors` object is
non-empty. -/
theorem validateContactForm_spec (d : ContactFormData) :
    ((validateContactForm d).isValid = true ↔
      (2 ≤ (jsTrim d.name).length ∧ emailRegexTest d.email = true ∧
        10 ≤ (jsTrim d.message).length))
    ∧ ((validateContactForm d).errors.name =
        if 2 ≤ (jsTrim d.name).length then none else some nameError)
    ∧ ((validateContactForm d).errors.email =
        if emailRegexTest d.email = true then none else some emailError)
    ∧ ((validateContactForm d).errors.message =
        if 10 ≤ (jsTrim d.message).length then none else some messageError)
    ∧ ((validateContactForm d).isValid = false ↔
        ¬ ((validateContactForm d).errors.name = none ∧
          (validateContactForm d).errors.email = none ∧
          (validateContactForm d).errors.message = none)) := by
  obtain ⟨n, e, m⟩ := d
  have hn := name_guard_iff n
  have he := email_guard_iff e
  have hm := message_guard_iff m
  simp only [validateContactForm]
  by_cases h1 : 2 ≤ (jsTrim n).length <;>
    by_cases h2 : emailRegexTest e = true <;>
      by_cases h3 : 10 ≤ (jsTrim m).length <;>
        simp_all

/-- C5: `detectDeviceCapability` maps device heuristics to one of exactly
three levels — `medium` with no window; else `low` without WebGL; else `low`
when the user agent is mobile, (defaulted) cores ≤ 2, or (defaulted) memory
< 4; else `high` when cores ≥ 8 and memory ≥ 8; else `medium` — and
`getPerformanceConfig` on an explicit quality returns exactly the fixed
preset for it (low: maxNodes 4, geometryDetail 8, animations and glow off;
medium: maxNodes 6, geometryDetail 12, animations on, glow off; high:
maxNodes 8, geometryDetail 16, animations and glow on). -/
theorem detectDeviceCapability_spec (env : DeviceEnv) :
    (env.hasWindow = false → detectDeviceCapability env = .medium)
    ∧ (env.hasWindow = true → env.webglAvailable = false →
        detectDeviceCapability env = .low)
    ∧ (env.hasWindow = true → env.webglAvailable = true →
        (env.userAgentIsMobile = true ∨ coresOf env ≤ 2 ∨ memoryOf env < 4) →
        detectDeviceCapability env = .low)
    ∧ (env.hasWindow = true → env.webglAvailable = true →
        ¬ (env.userAgentIsMobile = true ∨ coresOf env ≤ 2 ∨ memoryOf env < 4) →
        8 ≤ coresOf env → (8 : ℚ) ≤ memoryOf env →
        detectDeviceCapability env = .high)
    ∧ (env.hasWindow = true → env.webglAvailable = true →
        ¬ (env.userAgentIsMobile = true ∨ coresOf env ≤ 2 ∨ memoryOf env < 4) →
        ¬ (8 ≤ coresOf env ∧ (8 : ℚ) ≤ memoryOf env) →
        detectDeviceCapability env = .medium)
    ∧ (∀ q, getPerformanceConfig env (some q) = QUALITY_PRESETS q)
    ∧ ((QUALITY_PRESETS .low).maxNodes = 4 ∧ (QUALITY_PRESETS .low).geometryDetail = 8 ∧
        (QUALITY_PRESETS .low).enableAnimations = false ∧
        (QUALITY_PRESETS .low).enableGlow = false)
    ∧ ((QUALITY_PRESETS .medium).maxNodes = 6 ∧
        (QUALITY_PRESETS .medium).geometryDetail = 12 ∧
        (QUALITY_PRESETS .medium).enableAnimations = true ∧
        (QUALITY_PRESETS .medium).enableGlow = false)
    ∧ ((QUALITY_PRESETS .high).maxNodes = 8 ∧ (QUALITY_PRESETS .high).geometryDetail = 16 ∧
        (QUALITY_PRESETS .high).enableAnimations = true ∧
        (QUALITY_PRESETS .high).enableGlow = true) := by
  unfold detectDeviceCapability
  refine ⟨fun h => by simp [h], fun h h2 => by simp [h, h2], fun h h2 h3 => ?_,
    fun h h2 h3 h4 h5 => ?_, fun h h2 h3 h4 => ?_, fun q => rfl, ⟨rfl, rfl, rfl, rfl⟩,
    ⟨rfl, rfl, rfl, rfl⟩, ⟨rfl, rfl, rfl, rfl⟩⟩
  · simp [h, h2, h3]
  · simp only [h, h2]
    simp only [Bool.true_eq_false, if_false]
    rw [if_neg h3, if_pos ⟨h4, h5⟩]
  · simp only [h, h2]
    simp only [Bool.true_eq_false, if_false]
    rw [if_neg h3, if_neg h4]

/-- Witness for `detectDeviceCapability_spec`: on a windowless environment
the result is `medium`, and an explicit `low` request yields the low
preset. -/
theorem detectDeviceCapability_spec_witness :
    detectDeviceCapability
      { hasWindow := false, webglAvailable := false, hardwareConcurrency := none,
        deviceMemory := none, userAgentIsMobile := false } = .medium ∧
    getPerformanceConfig
      { hasWindow := false, webglAvailable := false, hardwareConcurrency := none,
        deviceMemory := none, userAgentIsMobile := false } (some .low) =
      QUALITY_PRESETS .low := by
  refine ⟨(detectDeviceCapability_spec _).1 rfl, ?_⟩
  exact (detectDeviceCapability_spec _).2.2.2.2.2.1 .low

/-- C9: the `useAdaptiveQuality` step maps frame count and current quality
as claimed — frame count < 20 with quality not `low` yields `low`; otherwise
frame count < 30 with quality `high` yields `medium`; otherwise the quality
is unchanged — and the step never upgrades the quality in the order
low < medium < high. -/
theorem adaptiveQualityStep_spec (frameCount : Nat) (quality : QualityLevel) :
    (frameCount < 20 → quality ≠ .low →
      adaptiveQualityStep frameCount quality = .low)
    ∧ (¬ (frameCount < 20 ∧ quality ≠ .low) → frameCount < 30 → quality = .high →
      adaptiveQualityStep frameCount quality = .medium)
    ∧ (¬ (frameCount < 20 ∧ quality ≠ .low) → ¬ (frameCount < 30 ∧ quality = .high) →
      adaptiveQualityStep frameCount quality = quality)
    ∧ qualityRank (adaptiveQualityStep frameCount quality) ≤ qualityRank quality := by
  unfold adaptiveQualityStep
  refine ⟨fun h1 h2 => by rw [if_pos ⟨h1, h2⟩], fun h1 h2 h3 => ?_, fun h1 h2 => ?_, ?_⟩
  · rw [if_neg h1, if_pos ⟨h2, h3⟩]
  · rw [if_neg h1, if_neg h2]
  · split
    · cases quality <;> simp [qualityRank]
    · split
      · rename_i h1 h2
        cases quality <;> simp_all [qualityRank]
      · exact le_refl _

/-- Witness for `adaptiveQualityStep_spec`: at 10 frames per second a `high`
quality is degraded to `low`, which ranks no higher than `high`. -/
theorem adaptiveQualityStep_spec_witness :
    adaptiveQualityStep 10 .high = .low ∧
    qualityRank (adaptiveQualityStep 10 .high) ≤ qualityRank .high := by
  have h := adaptiveQualityStep_spec 10 .high
  exact ⟨h.1 (by decide) (by decide), h.2.2.2⟩

/-- Every produced connection line joins the positions of two nodes that are
both in the visible list. -/
lemma connectionsOf_mem (visibleNodes : List NodeData) (conn : ConnectionSpec)
    (hconn : conn ∈ connectionsOf visibleNodes) :
    ∃ a ∈ visibleNodes, ∃ b ∈ visibleNodes,
      conn.start = a.position ∧ conn.stop = b.position := by
  rw [connectionsOf, List.mem_flatMap] at hconn
  obtain ⟨node, hnode, hmem⟩ := hconn
  rw [List.mem_filterMap] at hmem
  obtain ⟨targetId, _, htarget⟩ := hmem
  by_cases hc : (visibleNodes.map (fun n => n.id)).contains targetId
  · rw [if_pos hc] at htarget
    cases hfind : visibleNodes.find? (fun n => n.id == targetId) with
    | none => rw [hfind] at htarget; exact absurd htarget (by simp)
    | some targetNode =>
      rw [hfind] at htarget
      have hb : targetNode ∈ visibleNodes := List.mem_of_find?_eq_some hfind
      simp only [Option.some.injEq] at htarget
      subst htarget
      exact ⟨node, hnode, targetNode, hb, rfl, rfl⟩
  · rw [if_neg hc] at htarget
    exact absurd htarget (by simp)

/-- C8: the scene graph is a fixed list of exactly 8 nodes; for every
performance configuration the rendered node set is exactly the first
`min 8 maxNodes` nodes of that list, and every rendered connection line
joins two nodes that are both in the rendered set, so a connection whose
target is cut off by the `maxNodes` limit is never drawn. -/
theorem networkGraph_spec :
    NETWORK_NODES.length = 8
    ∧ (∀ performanceConfig : PerformanceConfig,
        visibleNodesOf performanceConfig = NETWORK_NODES.take performanceConfig.maxNodes
        ∧ (visibleNodesOf performanceConfig).length = min 8 performanceConfig.maxNodes
        ∧ (∀ conn ∈ connectionsOf (visibleNodesOf performanceConfig),
            ∃ a ∈ visibleNodesOf performanceConfig,
              ∃ b ∈ visibleNodesOf performanceConfig,
                conn.start = a.position ∧ conn.stop = b.position)) := by
  refine ⟨rfl, fun performanceConfig => ⟨rfl, ?_, fun conn hconn =>
    connectionsOf_mem _ conn hconn⟩⟩
  rw [visibleNodesOf, List.length_take]
  have h8 : NETWORK_NODES.length = 8 := rfl
  rw [h8, Nat.min_comm]

/-- Witness for `networkGraph_spec`: under the `low` preset (4 nodes) the
connection from the gateway to the auth service is drawn and joins two
visible nodes. -/
theorem networkGraph_spec_witness :
    ∃ a ∈ visibleNodesOf (QUALITY_PRESETS .low),
      ∃ b ∈ visibleNodesOf (QUALITY_PRESETS .low),
        ({ start := (0, 1.5, 0), stop := (-2, 0.5, 0.5),
           key := "api-gateway-auth" } : ConnectionSpec).start = a.position ∧
        ({ start := (0, 1.5, 0), stop := (-2, 0.5, 0.5),
           key := "api-gateway-auth" } : ConnectionSpec).stop = b.position := by
  refine ((networkGraph_spec.2 (QUALITY_PRESETS .low)).2.2) _ ?_
  have hconns : connectionsOf (visibleNodesOf (QUALITY_PRESETS .low)) =
      [ ConnectionSpec.mk (0, 1.5, 0) (-2, 0.5, 0.5) "api-gateway-auth",
        ConnectionSpec.mk (0, 1.5, 0) (2, 0.5, -0.5) "api-gateway-users",
        ConnectionSpec.mk (0, 1.5, 0) (0, 0, 1) "api-gateway-data",
        ConnectionSpec.mk (-2, 0.5, 0.5) (2, 0.5, -0.5) "auth-users" ] := rfl
  rw [hconns]
  exact List.mem_cons_self _ _

@[simp] lemma isErr_err {α : Type} (m : String) : (ApiBody.err m : ApiBody α).isErr :=
  trivial

@[simp] lemma isErr_payload {α : Type} (a : α) :
    ¬ (ApiBody.payload a : ApiBody α).isErr := fun h => h

lemma githubGET_username_none (today : String) (uf : Fetched GitHubUser)
    (rf : Fetched (List GitHubRepo)) (cf : Fetched ContribData) :
    githubGET none today uf rf cf = { status := 400, body := .err "Username required" } :=
  rfl

lemma githubGET_username_empty (today : String) (uf : Fetched GitHubUser)
    (rf : Fetched (List GitHubRepo)) (cf : Fetched ContribData) :
    githubGET (some "") today uf rf cf =
      { status := 400, body := .err "Username required" } := by
  simp [githubGET]

lemma githubGET_user_throws {u : String} {today : String}
    {rf : Fetched (List GitHubRepo)} {cf : Fetched ContribData} (hu : u ≠ "") :
    githubGET (some u) today .throws rf cf =
      { status := 500, body := .err "Failed to fetch GitHub data" } := by
  simp [githubGET, hu]

lemma githubGET_user_fail {u : String} {today : String} {s : Nat}
    {rf : Fetched (List GitHubRepo)} {cf : Fetched ContribData} (hu : u ≠ "") :
    githubGET (some u) today (.fail s) rf cf =
      if s = 403 then { status := 429, body := .err "GitHub API rate limit exceeded" }
      else if s = 401 then { status := 401, body := .err "Invalid GitHub token" }
      else if s = 404 then { status := 404, body := .err "User not found" }
      else { status := 500, body := .err "Failed to fetch GitHub data" } := by
  simp [githubGET, hu]

lemma githubGET_repos_throws {u : String} {today : String} {user : GitHubUser}
    {cf : Fetched ContribData} (hu : u ≠ "") :
    githubGET (some u) today (.ok user) .throws cf =
      { status := 500, body := .err "Failed to fetch GitHub data" } := by
  simp [githubGET, hu]

lemma githubGET_success_fail {u : String} {today : String} {user : GitHubUser}
    {st : Nat} {cf : Fetched ContribData} (hu : u ≠ "") :
    githubGET (some u) today (.ok user) (.fail st) cf =
      { status := 200,
        body := .payload
          { publicRepos := user.public_repos, followers := user.followers,
            following := user.following, totalStars := totalStarsOf [],
            topLanguages := topLanguagesOf [],
            totalContributions := (contribStatsOf today cf).1,
            currentStreak := (contribStatsOf today cf).2.1,
            longestStreak := (contribStatsOf today cf).2.2 } } := by
  simp [githubGET, hu]

lemma githubGET_success_ok {u : String} {today : String} {user : GitHubUser}
    {repos : List GitHubRepo} {cf : Fetched ContribData} (hu : u ≠ "") :
    githubGET (some u) today (.ok user) (.ok repos) cf =
      { status := 200,
        body := .payload
          { publicRepos := user.public_repos, followers := user.followers,
            following := user.following, totalStars := totalStarsOf repos,
            topLanguages := topLanguagesOf repos,
            totalContributions := (contribStatsOf today cf).1,
            currentStreak := (contribStatsOf today cf).2.1,
            longestStreak := (contribStatsOf today cf).2.2 } } := by
  simp [githubGET, hu]

lemma devtoGET_username_none (af : Fetched (List DevToArticle)) :
    devtoGET none af = { status := 400, body := .err "Username required" } := rfl

lemma devtoGET_username_empty (af : Fetched (List DevToArticle)) :
    devtoGET (some "") af = { status := 400, body := .err "Username required" } := by
  simp [devtoGET]

lemma devtoGET_articles_throws {u : String} (hu : u ≠ "") :
    devtoGET (some u) .throws =
      { status := 500, body := .err "Failed to fetch blog posts" } := by
  simp [devtoGET, hu]

lemma devtoGET_articles_fail {u : String} {s : Nat} (hu : u ≠ "") :
    devtoGET (some u) (.fail s) =
      if s = 404 then { status := 404, body := .err "User not found" }
      else if s = 429 then { status := 429, body := .err "Rate limit exceeded" }
      else { status := 500, body := .err "Failed to fetch blog posts" } := by
  simp [devtoGET, hu]

lemma devtoGET_articles_ok {u : String} {articles : List DevToArticle} (hu : u ≠ "") :
    devtoGET (some u) (.ok articles) =
      { status := 200,
        body := .payload { blogs := (articles.take 3).map transformArticle } } := by
  simp [devtoGET, hu]

/-- C2 counterexample: with the `username` query parameter present but equal
to the empty string (`?username=`), both handlers still respond 400, so the
400 response is not equivalent to the parameter being absent. -/
theorem proxy_400_on_empty_username_counterexample :
    (githubGET (some "") "2026-10-12" (.ok ⟨0, 0, 0⟩) (.ok []) (.fail 500)).status = 400
    ∧ (devtoGET (some "") (.ok [])).status = 400
    ∧ (some "" : Option String) ≠ none := by
  refine ⟨rfl, rfl, by simp⟩

/-- C2 (amended): each handler responds 400 with a JSON `{error}` body
exactly when the `username` query parameter is absent **or empty**;
otherwise every non-success status lies in {401, 404, 429, 500} with a
JSON `{error}` body, the GitHub handler mapping an upstream user-fetch
status 403 to 429, 401 to 401, 404 to 404 and any other non-OK status to
500, and the dev.to handler mapping upstream 404 to 404, 429 to 429 and
any other non-OK status to 500. -/
theorem proxy_status_mapping (username : Option String) (today : String)
    (userFetch : Fetched GitHubUser) (reposFetch : Fetched (List GitHubRepo))
    (contribFetch : Fetched ContribData)
    (articlesFetch : Fetched (List DevToArticle)) :
    (((githubGET username today userFetch reposFetch contribFetch).status = 400 ∧
        (githubGET username today userFetch reposFetch contribFetch).body.isErr) ↔
      (username = none ∨ username = some ""))
    ∧ ((githubGET username today userFetch reposFetch contribFetch).status ≠ 200 →
        (githubGET username today userFetch reposFetch contribFetch).body.isErr ∧
        ((githubGET username today userFetch reposFetch contribFetch).status = 400 ∨
          (githubGET username today userFetch reposFetch contribFetch).status = 401 ∨
          (githubGET username today userFetch reposFetch contribFetch).status = 404 ∨
          (githubGET username today userFetch reposFetch contribFetch).status = 429 ∨
          (githubGET username today userFetch reposFetch contribFetch).status = 500))
    ∧ (username ≠ none → username ≠ some "" →
        ((userFetch = .fail 403 →
            (githubGET username today userFetch reposFetch contribFetch).status = 429)
        ∧ (userFetch = .fail 401 →
            (githubGET username today userFetch reposFetch contribFetch).status = 401)
        ∧ (userFetch = .fail 404 →
            (githubGET username today userFetch reposFetch contribFetch).status = 404)
        ∧ (∀ s, userFetch = .fail s → s ≠ 403 → s ≠ 401 → s ≠ 404 →
            (githubGET username today userFetch reposFetch contribFetch).status = 500)))
    ∧ (((devtoGET username articlesFetch).status = 400 ∧
        (devtoGET username articlesFetch).body.isErr) ↔
      (username = none ∨ username = some ""))
    ∧ ((devtoGET username articlesFetch).status ≠ 200 →
        (devtoGET username articlesFetch).body.isErr ∧
        ((devtoGET username articlesFetch).status = 400 ∨
          (devtoGET username articlesFetch).status = 404 ∨
          (devtoGET username articlesFetch).status = 429 ∨
          (devtoGET username articlesFetch).status = 500))
    ∧ (username ≠ none → username ≠ some "" →
        ((articlesFetch = .fail 404 → (devtoGET username articlesFetch).status = 404)
        ∧ (articlesFetch = .fail 429 → (devtoGET username articlesFetch).status = 429)
        ∧ (∀ s, articlesFetch = .fail s → s ≠ 404 → s ≠ 429 →
            (devtoGET username articlesFetch).status = 500))) := by
  rcases username with _ | u
  · simp only [githubGET_username_none, devtoGET_username_none]
    simp
  · by_cases hu : u = ""
    · subst hu
      simp only [githubGET_username_empty, devtoGET_username_empty]
      simp
    · refine ⟨?_, ?_, fun _ _ => ⟨?_, ?_, ?_, ?_⟩, ?_, ?_, fun _ _ => ⟨?_, ?_, ?_⟩⟩
      · cases userFetch with
        | throws => rw [githubGET_user_throws hu]; simp [hu]
        | fail s =>
          rw [githubGET_user_fail hu]
          split_ifs <;> simp [hu]
        | ok user =>
          cases reposFetch with
          | throws => rw [githubGET_repos_throws hu]; simp [hu]
          | fail st => rw [githubGET_success_fail hu]; simp [hu]
          | ok repos => rw [githubGET_success_ok hu]; simp [hu]
      · cases userFetch with
        | throws => rw [githubGET_user_throws hu]; simp
        | fail s =>
          rw [githubGET_user_fail hu]
          split_ifs <;> simp
        | ok user =>
          cases reposFetch with
          | throws => rw [githubGET_repos_throws hu]; simp
          | fail st => rw [githubGET_success_fail hu]; simp
          | ok repos => rw [githubGET_success_ok hu]; simp
      · intro heq
        rw [heq, githubGET_user_fail hu]
        simp
      · intro heq
        rw [heq, githubGET_user_fail hu]
        simp
      · intro heq
        rw [heq, githubGET_user_fail hu]
        simp
      · intro s heq h3 h1 h4
        rw [heq, githubGET_user_fail hu, if_neg h3, if_neg h1, if_neg h4]
      · cases articlesFetch with
        | throws => rw [devtoGET_articles_throws hu]; simp [hu]
        | fail s =>
          rw [devtoGET_articles_fail hu]
          split_ifs <;> simp [hu]
        | ok articles => rw [devtoGET_articles_ok hu]; simp [hu]
      · cases articlesFetch with
        | throws => rw [devtoGET_articles_throws hu]; simp
        | fail s =>
          rw [devtoGET_articles_fail hu]
          split_ifs <;> simp
        | ok articles => rw [devtoGET_articles_ok hu]; simp
      · intro heq
        rw [heq, devtoGET_articles_fail hu]
        simp
      · intro heq
        rw [heq, devtoGET_articles_fail hu]
        simp
      · intro s heq h4 h29
        rw [heq, devtoGET_articles_fail hu, if_neg h4, if_neg h29]

/-- Witness for `proxy_status_mapping`: a present, non-empty username with an
upstream 403 on the user fetch yields a 429 response. -/
theorem proxy_status_mapping_witness :
    (githubGET (some "torvalds") "2026-10-12" (.fail 403) (.ok []) (.fail 500)).status
      = 429 := by
  have h := proxy_status_mapping (some "torvalds") "2026-10-12" (.fail 403) (.ok [])
    (.fail 500) (.ok [])
  exact (h.2.2.1 (by simp) (by simp)).1 rfl

/-- C4 counterexample: with the user and contributions fetches succeeding but
the repos fetch resolving non-OK (a failing outbound fetch), the handler
still returns a 200 success response whose star/language fields are built
from the empty fallback list. -/
theorem github_partial_data_counterexample :
    (githubGET (some "user") "2026-10-12" (.ok ⟨1, 2, 3⟩) (.fail 500)
        (.ok ⟨some [("2025", 7)], some []⟩)).status = 200
    ∧ (githubGET (some "user") "2026-10-12" (.ok ⟨1, 2, 3⟩) (.fail 500)
        (.ok ⟨some [("2025", 7)], some []⟩)).body =
      .payload ⟨1, 2, 3, 0, [], 7, 0, 0⟩ := by
  refine ⟨rfl, ?_⟩
  simp [githubGET, contribStatsOf, totalContributionsOf, currentStreakOf, longestStreakOf,
    validContribsOf, backwardStreak, longestStreakLoop, totalStarsOf, topLanguagesOf,
    langCountOf]

/-- C4 (amended): failures of the user-data fetch are surfaced as a fixed
status/JSON error body (never a 200), and a throwing repos fetch yields 500;
but a repos fetch resolving non-OK is absorbed — the handler returns 200
with `totalStars` and `topLanguages` computed from the empty list — and a
failing contributions fetch (non-OK or throwing) is absorbed with zero
contribution totals and streaks. -/
theorem github_fetch_failure_boundary (u today : String) (hu : u ≠ "")
    (uf : Fetched GitHubUser) (rf : Fetched (List GitHubRepo))
    (cf : Fetched ContribData) :
    (uf = .throws → githubGET (some u) today uf rf cf =
      { status := 500, body := .err "Failed to fetch GitHub data" })
    ∧ (∀ s, uf = .fail s → (githubGET (some u) today uf rf cf).status ≠ 200 ∧
        (githubGET (some u) today uf rf cf).body.isErr)
    ∧ (∀ user, uf = .ok user → rf = .throws → githubGET (some u) today uf rf cf =
        { status := 500, body := .err "Failed to fetch GitHub data" })
    ∧ (∀ user s, uf = .ok user → rf = .fail s →
        (githubGET (some u) today uf rf cf).status = 200 ∧
        (githubGET (some u) today uf rf cf).body = .payload
          { publicRepos := user.public_repos, followers := user.followers,
            following := user.following, totalStars := 0, topLanguages := [],
            totalContributions := (contribStatsOf today cf).1,
            currentStreak := (contribStatsOf today cf).2.1,
            longestStreak := (contribStatsOf today cf).2.2 })
    ∧ contribStatsOf today .throws = (0, 0, 0)
    ∧ (∀ s, contribStatsOf today (.fail s) = (0, 0, 0)) := by
  refine ⟨fun h => ?_, fun s h => ?_, fun user h h2 => ?_, fun user s h h2 => ?_, rfl,
    fun s => rfl⟩
  · rw [h, githubGET_user_throws hu]
  · rw [h, githubGET_user_fail hu]
    split_ifs <;> simp
  · rw [h, h2, githubGET_repos_throws hu]
  · rw [h, h2, githubGET_success_fail hu]
    refine ⟨rfl, ?_⟩
    simp [totalStarsOf, topLanguagesOf, langCountOf]

/-- Witness for `github_fetch_failure_boundary`: a throwing user fetch
produces the fixed 500 error response. -/
theorem github_fetch_failure_boundary_witness :
    githubGET (some "user") "2026-10-12" .throws (.ok []) (.fail 500) =
      { status := 500, body := .err "Failed to fetch GitHub data" } := by
  exact (github_fetch_failure_boundary "user" "2026-10-12" (by simp) .throws (.ok [])
    (.fail 500)).1 rfl

/-- C6: for every successful dev.to response the handler returns exactly the
first `min |A| 3` articles in their original order, each transformed
field-for-field from snake_case to camelCase with every field value
unchanged. -/
theorem devto_transform_spec (u : String) (hu : u ≠ "") (articles : List DevToArticle) :
    devtoGET (some u) (.ok articles) =
      { status := 200,
        body := .payload { blogs := (articles.take 3).map transformArticle } }
    ∧ ((articles.take 3).map transformArticle).length = min articles.length 3
    ∧ (∀ i, i < min articles.length 3 →
        ((articles.take 3).map transformArticle)[i]? = (articles[i]?).map transformArticle)
    ∧ (∀ a : DevToArticle,
        (transformArticle a).id = a.id ∧ (transformArticle a).title = a.title ∧
        (transformArticle a).description = a.description ∧
        (transformArticle a).url = a.url ∧
        (transformArticle a).coverImage = a.cover_image ∧
        (transformArticle a).socialImage = a.social_image ∧
        (transformArticle a).publishedAt = a.published_at ∧
        (transformArticle a).readingTimeMinutes = a.reading_time_minutes ∧
        (transformArticle a).tags = a.tag_list) := by
  refine ⟨devtoGET_articles_ok hu, ?_, ?_,
    fun a => ⟨rfl, rfl, rfl, rfl, rfl, rfl, rfl, rfl, rfl⟩⟩
  · rw [List.length_map, List.length_take, Nat.min_comm]
  · intro i hi
    rw [List.getElem?_map, List.getElem?_take]
    rw [if_pos (by omega)]

/-- Witness for `devto_transform_spec`: a concrete two-article list is
returned whole, in order, with camelCase fields. -/
theorem devto_transform_spec_witness :
    devtoGET (some "mishra") (.ok
      [⟨1, "a", "d", "u", none, none, "2025-01-01", 3, ["x"]⟩,
       ⟨2, "b", "e", "v", some "c", none, "2025-01-02", 4, []⟩]) =
      { status := 200,
        body := .payload { blogs :=
          [⟨1, "a", "d", "u", none, none, "2025-01-01", 3, ["x"]⟩,
           ⟨2, "b", "e", "v", some "c", none, "2025-01-02", 4, []⟩] } } := by
  exact (devto_transform_spec "mishra" (by simp)
    [⟨1, "a", "d", "u", none, none, "2025-01-01", 3, ["x"]⟩,
     ⟨2, "b", "e", "v", some "c", none, "2025-01-02", 4, []⟩]).1

lemma langInv_nil : LangInv [] [] := by
  refine ⟨List.nodup_nil, fun p hp => absurd hp (List.not_mem_nil p), fun lang _ h => ?_⟩
  simp [reposWithLanguage] at h

lemma reposWithLanguage_append (l : List GitHubRepo) (r : GitHubRepo) (lang : String) :
    reposWithLanguage (l ++ [r]) lang =
      reposWithLanguage l lang + (if r.language = some lang then 1 else 0) := by
  rw [reposWithLanguage, List.filter_append, List.length_append, reposWithLanguage]
  congr 1
  split_ifs with h <;> simp [h]

lemma langInv_step (processed : List GitHubRepo) (acc : List (String × Nat))
    (r : GitHubRepo) (hinv : LangInv processed acc) :
    LangInv (processed ++ [r]) (langStep acc r) := by
  obtain ⟨hnd, hval, hcov⟩ := hinv
  cases hr : r.language with
  | none =>
    have hstep : langStep acc r = acc := by simp [langStep, hr]
    rw [hstep]
    refine ⟨hnd, fun p hp => ?_, fun lang hl hpos => ?_⟩
    · obtain ⟨h1, h2, h3⟩ := hval p hp
      refine ⟨h1, h2, ?_⟩
      rw [reposWithLanguage_append, if_neg (by simp [hr]), Nat.add_zero]
      exact h3
    · apply hcov lang hl
      rwa [reposWithLanguage_append, if_neg (by simp [hr]), Nat.add_zero] at hpos
  | some lang0 =>
    by_cases h0 : lang0 = ""
    · subst h0
      have hstep : langStep acc r = acc := by simp [langStep, hr]
      rw [hstep]
      refine ⟨hnd, fun p hp => ?_, fun lang hl hpos => ?_⟩
      · obtain ⟨h1, h2, h3⟩ := hval p hp
        refine ⟨h1, h2, ?_⟩
        rw [reposWithLanguage_append, if_neg (by simp [hr, Ne.symm h1]), Nat.add_zero]
        exact h3
      · apply hcov lang hl
        rwa [reposWithLanguage_append, if_neg (by simp [hr, Ne.symm hl]),
          Nat.add_zero] at hpos
    · have hstep : langStep acc r = bumpLang acc lang0 := by
        simp [langStep, hr, h0]
      by_cases hmem : acc.any (fun p => p.1 == lang0)
      · have hbump : bumpLang acc lang0 =
            acc.map (fun p => if p.1 = lang0 then (p.1, p.2 + 1) else p) := by
          rw [bumpLang, if_pos hmem]
        have hkeys : (acc.map (fun p => if p.1 = lang0 then (p.1, p.2 + 1) else p)).map
            Prod.fst = acc.map Prod.fst := by
          rw [List.map_map]
          apply List.map_congr_left
          intro p _
          by_cases h : p.1 = lang0 <;> simp [h]
        refine ⟨?_, fun p hp => ?_, fun lang hl hpos => ?_⟩
        · rw [hstep, hbump, hkeys]; exact hnd
        · rw [hstep, hbump, List.mem_map] at hp
          obtain ⟨q, hq, hpq⟩ := hp
          obtain ⟨h1, h2, h3⟩ := hval q hq
          by_cases hq1 : q.1 = lang0
          · rw [if_pos hq1] at hpq
            subst hpq
            refine ⟨h1, Nat.succ_le_succ (Nat.zero_le _), ?_⟩
            rw [reposWithLanguage_append, if_pos (by rw [hr, hq1]), ← h3]
          · rw [if_neg hq1] at hpq
            subst hpq
            refine ⟨h1, h2, ?_⟩
            rw [reposWithLanguage_append, if_neg (by simp [hr, Ne.symm hq1]), h3,
              Nat.add_zero]
          -- the positivity in the updated branch is 0 < q.2 + 1
        · rw [hstep, hbump, hkeys]
          by_cases hll : lang = lang0
          · subst hll
            rw [List.any_eq_true] at hmem
            obtain ⟨q, hq, hq1⟩ := hmem
            rw [List.mem_map]
            exact ⟨q, hq, by simpa using hq1⟩
          · apply hcov lang hl
            rwa [reposWithLanguage_append, if_neg (by simp [hr, Ne.symm hll]),
              Nat.add_zero] at hpos
      · have hbump : bumpLang acc lang0 = acc ++ [(lang0, 1)] := by
          rw [bumpLang, if_neg hmem]
        have hnotkey : lang0 ∉ acc.map Prod.fst := by
          intro hk
          rw [List.mem_map] at hk
          obtain ⟨q, hq, hq1⟩ := hk
          exact hmem (List.any_eq_true.mpr ⟨q, hq, by simp [hq1]⟩)
        have hzero : reposWithLanguage processed lang0 = 0 := by
          by_contra hz
          exact hnotkey (hcov lang0 h0 (Nat.pos_of_ne_zero hz))
        refine ⟨?_, fun p hp => ?_, fun lang hl hpos => ?_⟩
        · rw [hstep, hbump, List.map_append]
          simp only [List.map_cons, List.map_nil]
          refine List.Nodup.append hnd (List.nodup_singleton _) ?_
          intro a ha hb
          rw [List.mem_singleton] at hb
          exact hnotkey (hb ▸ ha)
        · rw [hstep, hbump, List.mem_append] at hp
          rcases hp with hp | hp
          · obtain ⟨h1, h2, h3⟩ := hval p hp
            have hne : p.1 ≠ lang0 := fun hc =>
              hnotkey (hc ▸ List.mem_map.mpr ⟨p, hp, rfl⟩)
            refine ⟨h1, h2, ?_⟩
            rw [reposWithLanguage_append, if_neg (by simp [hr, Ne.symm hne]), h3,
              Nat.add_zero]
          · rw [List.mem_singleton] at hp
            subst hp
            refine ⟨h0, Nat.one_pos, ?_⟩
            rw [reposWithLanguage_append, if_pos (by rw [hr]), hzero]
        · rw [hstep, hbump, List.map_append, List.mem_append]
          by_cases hll : lang = lang0
          · right
            simp [hll]
          · left
            apply hcov lang hl
            rwa [reposWithLanguage_append, if_neg (by simp [hr, Ne.symm hll]),
              Nat.add_zero] at hpos

lemma langInv_foldl (repos : List GitHubRepo) :
    ∀ (processed : List GitHubRepo) (acc : List (String × Nat)),
      LangInv processed acc → LangInv (processed ++ repos) (repos.foldl langStep acc) := by
  induction repos with
  | nil => intro processed acc h; simpa using h
  | cons r rest ih =>
    intro processed acc h
    have h2 := ih (processed ++ [r]) (langStep acc r) (langInv_step processed acc r h)
    rw [List.foldl_cons]
    rwa [List.append_assoc, List.singleton_append] at h2

lemma langCountOf_inv (repos : List GitHubRepo) : LangInv repos (langCountOf repos) := by
  have h := langInv_foldl repos [] [] langInv_nil
  rwa [List.nil_append] at h

lemma totalStarsOf_eq_sum (repos : List GitHubRepo) :
    totalStarsOf repos = (repos.map (fun r => r.stargazers_count)).sum := by
  rw [totalStarsOf]
  suffices h : ∀ (l : List GitHubRepo) (n : Nat),
      l.foldl (fun sum repo => sum + repo.stargazers_count) n =
        n + (l.map (fun r => r.stargazers_count)).sum by
    simpa using h repos 0
  intro l
  induction l with
  | nil => simp
  | cons r rest ih => intro n; simp [ih]; omega

/-- C7 counterexample: a repo whose `language` is the non-null empty string
is skipped by the truthiness test `if (repo.language)`, so no `topLanguages`
entry is produced for a distinct non-null language that one repo has. -/
theorem topLanguages_empty_language_counterexample :
    topLanguagesOf [{ stargazers_count := 0, language := some "" }] = []
    ∧ (some "" : Option String) ≠ none
    ∧ reposWithLanguage [{ stargazers_count := 0, language := some "" }] "" = 1 := by
  refine ⟨?_, by simp, by simp [reposWithLanguage]⟩
  simp [topLanguagesOf, langCountOf, langStep]

/-- C7 (amended): `totalStars` is the sum of `stargazers_count` over the
fetched repos, and `topLanguages` has at most five entries, with
pairwise-distinct names, one per distinct non-null **non-empty** language —
every entry carrying exactly its language's repo count, sorted descending by
count, and (before the five-entry cut) every non-null non-empty language
with at least one repo is represented; when the repos fetch returns non-OK
both are computed from the empty list (`totalStars = 0`,
`topLanguages = []`). -/
theorem github_stats_aggregation (repos : List GitHubRepo) :
    totalStarsOf repos = (repos.map (fun r => r.stargazers_count)).sum
    ∧ (topLanguagesOf repos).length ≤ 5
    ∧ ((topLanguagesOf repos).map (fun e => e.name)).Nodup
    ∧ (∀ e ∈ topLanguagesOf repos,
        e.name ≠ "" ∧ 0 < e.count ∧ e.count = reposWithLanguage repos e.name)
    ∧ List.Pairwise (fun a b : LanguageEntry => b.count ≤ a.count) (topLanguagesOf repos)
    ∧ (∀ lang, lang ≠ "" → 0 < reposWithLanguage repos lang →
        lang ∈ ((langCountOf repos).map (fun p => LanguageEntry.mk p.1 p.2)).map
          (fun e => e.name))
    ∧ (∀ (u today : String) (user : GitHubUser) (st : Nat) (cf : Fetched ContribData),
        u ≠ "" →
        (githubGET (some u) today (.ok user) (.fail st) cf).body = .payload
          { publicRepos := user.public_repos, followers := user.followers,
            following := user.following, totalStars := 0, topLanguages := [],
            totalContributions := (contribStatsOf today cf).1,
            currentStreak := (contribStatsOf today cf).2.1,
            longestStreak := (contribStatsOf today cf).2.2 }) := by
  obtain ⟨hnd, hval, hcov⟩ := langCountOf_inv repos
  have hTL : topLanguagesOf repos =
      ((((langCountOf repos).map (fun p => LanguageEntry.mk p.1 p.2)).mergeSort
        (fun a b => decide (b.count ≤ a.count))).take 5) := rfl
  have hperm : (((langCountOf repos).map (fun p => LanguageEntry.mk p.1 p.2)).mergeSort
      (fun a b => decide (b.count ≤ a.count))).Perm
        ((langCountOf repos).map (fun p => LanguageEntry.mk p.1 p.2)) :=
    List.mergeSort_perm _ _
  have hnames : ((langCountOf repos).map (fun p => LanguageEntry.mk p.1 p.2)).map
      (fun e => e.name) = (langCountOf repos).map Prod.fst := by
    rw [List.map_map]
    exact List.map_congr_left (fun p _ => rfl)
  refine ⟨totalStarsOf_eq_sum repos, ?_, ?_, ?_, ?_, ?_, ?_⟩
  · rw [hTL]
    exact List.length_take_le 5 _
  · have h1 : ((((langCountOf repos).map (fun p => LanguageEntry.mk p.1 p.2)).mergeSort
        (fun a b => decide (b.count ≤ a.count))).map (fun e => e.name)).Nodup := by
      rw [List.Perm.nodup_iff (hperm.map (fun e => e.name)), hnames]
      exact hnd
    rw [hTL, List.map_take]
    exact List.Nodup.sublist (List.take_sublist _ _) h1
  · intro e he
    rw [hTL] at he
    have h2 := (List.Perm.mem_iff hperm).mp (List.mem_of_mem_take he)
    rw [List.mem_map] at h2
    obtain ⟨p, hp, hpe⟩ := h2
    obtain ⟨h1, h2, h3⟩ := hval p hp
    subst hpe
    exact ⟨h1, h2, h3⟩
  · have htrans : ∀ a b c : LanguageEntry,
        decide (b.count ≤ a.count) = true → decide (c.count ≤ b.count) = true →
        decide (c.count ≤ a.count) = true := by
      intro a b c hab hbc
      simp only [decide_eq_true_eq] at *
      omega
    have htotal : ∀ a b : LanguageEntry,
        (decide (b.count ≤ a.count) || decide (a.count ≤ b.count)) = true := by
      intro a b
      simp only [Bool.or_eq_true, decide_eq_true_eq]
      omega
    have hsorted := List.sorted_mergeSort htrans htotal
      ((langCountOf repos).map (fun p => LanguageEntry.mk p.1 p.2))
    rw [hTL]
    exact List.Pairwise.sublist (List.take_sublist _ _)
      (hsorted.imp (fun h => of_decide_eq_true h))
  · intro lang hl hpos
    rw [hnames]
    exact hcov lang hl hpos
  · intro u today user st cf hu
    rw [githubGET_success_fail hu]
    simp [totalStarsOf, topLanguagesOf, langCountOf]

/-- Witness for `github_stats_aggregation`: on a one-repo list with language
`"TypeScript"`, the produced entry has a non-empty name and count 1, the
number of repos with that language. -/
theorem github_stats_aggregation_witness :
    ("TypeScript" : String) ≠ "" ∧ 0 < (1 : Nat) ∧
      (1 : Nat) = reposWithLanguage [⟨2, some "TypeScript"⟩] "TypeScript" := by
  have h := (github_stats_aggregation [⟨2, some "TypeScript"⟩]).2.2.2.1
    (LanguageEntry.mk "TypeScript" 1) ?_
  · exact h
  · simp [topLanguagesOf, langCountOf, langStep, bumpLang]

lemma backwardStreak_eq_trailing (today : String) (rl : List Contribution) :
    backwardStreak today rl =
      ((rl.takeWhile
          (fun c => decide (0 < c.count) || decide (c.date = today))).countP
        (fun c => decide (0 < c.count))) := by
  induction rl with
  | nil => rfl
  | cons c rest ih =>
    by_cases h1 : 0 < c.count
    · rw [backwardStreak, if_pos h1, List.takeWhile_cons, if_pos (by simp [h1]),
        List.countP_cons, if_pos (by simpa using h1), ih]
    · by_cases h2 : c.date = today
      · rw [backwardStreak, if_neg h1, if_pos h2, List.takeWhile_cons,
          if_pos (by simp [h2]), List.countP_cons, if_neg (by simpa using h1), ih]
        omega
      · rw [backwardStreak, if_neg h1, if_neg h2, List.takeWhile_cons,
          if_neg (by simp [h1, h2])]
        rfl

lemma longestStreakLoop_le (l : List Contribution) :
    ∀ streak longest : Nat, longest ≤ longestStreakLoop l streak longest := by
  induction l with
  | nil => intro s b; exact le_refl b
  | cons c rest ih =>
    intro s b
    by_cases h : 0 < c.count
    · rw [longestStreakLoop, if_pos h]
      exact le_trans (le_max_left b (s + 1)) (ih (s + 1) (max b (s + 1)))
    · rw [longestStreakLoop, if_neg h]
      exact ih 0 b

lemma longestStreakLoop_run (t : List Contribution) :
    ∀ (s : List Contribution) (streak longest : Nat), allPositive t → t ≠ [] →
      streak + t.length ≤ longestStreakLoop (t ++ s) streak longest := by
  induction t with
  | nil => intro s streak longest _ hne; exact absurd rfl hne
  | cons c t2 ih =>
    intro s streak longest hpos _
    have hc : 0 < c.count := hpos c (List.mem_cons_self c t2)
    rw [List.cons_append, longestStreakLoop, if_pos hc]
    by_cases ht2 : t2 = []
    · subst ht2
      rw [List.nil_append, List.length_cons, List.length_nil]
      exact le_trans (by omega)
        (le_trans (le_max_right longest (streak + 1)) (longestStreakLoop_le s _ _))
    · have h2 := ih s (streak + 1) (max longest (streak + 1))
        (fun x hx => hpos x (List.mem_cons_of_mem c hx)) ht2
      rw [List.length_cons]
      omega

lemma longestStreakLoop_maximal (p : List Contribution) :
    ∀ (t s : List Contribution) (streak longest : Nat), allPositive t →
      t.length ≤ longestStreakLoop (p ++ t ++ s) streak longest := by
  induction p with
  | nil =>
    intro t s streak longest hpos
    by_cases hne : t = []
    · subst hne
      exact Nat.zero_le _
    · have h := longestStreakLoop_run t s streak longest hpos hne
      rw [List.nil_append]
      exact le_trans (Nat.le_add_left _ _) h
  | cons c p2 ih =>
    intro t s streak longest hpos
    by_cases h : 0 < c.count
    · rw [List.cons_append, List.cons_append, longestStreakLoop, if_pos h]
      exact ih t s (streak + 1) _ hpos
    · rw [List.cons_append, List.cons_append, longestStreakLoop, if_neg h]
      exact ih t s 0 longest hpos

lemma longestStreakLoop_achieve (l : List Contribution) :
    ∀ streak longest : Nat,
      longestStreakLoop l streak longest = longest
      ∨ (∃ k, 1 ≤ k ∧ k ≤ l.length ∧ allPositive (l.take k) ∧
          longestStreakLoop l streak longest = streak + k)
      ∨ (∃ t, t <:+: l ∧ allPositive t ∧
          longestStreakLoop l streak longest = t.length) := by
  induction l with
  | nil => intro s b; left; rfl
  | cons c rest ih =>
    intro s b
    by_cases h : 0 < c.count
    · rw [longestStreakLoop, if_pos h]
      rcases ih (s + 1) (max b (s + 1)) with h1 | ⟨k, hk1, hk2, hk3, hk4⟩ |
        ⟨t, ht1, ht2, ht3⟩
      · rcases le_or_lt (s + 1) b with hle | hlt
        · left
          rw [h1, max_eq_left hle]
        · right; left
          refine ⟨1, le_refl 1, by rw [List.length_cons]; omega, ?_, ?_⟩
          · intro x hx
            rw [List.take_succ_cons, List.take_zero] at hx
            rw [List.mem_singleton] at hx
            subst hx
            exact h
          · rw [h1, max_eq_right (le_of_lt hlt)]
      · right; left
        refine ⟨k + 1, by omega, by rw [List.length_cons]; omega, ?_, by rw [hk4]; omega⟩
        intro x hx
        rw [List.take_succ_cons] at hx
        rcases List.mem_cons.mp hx with hx | hx
        · subst hx; exact h
        · exact hk3 x hx
      · right; right
        exact ⟨t, ht1.trans (List.suffix_cons c rest).isInfix, ht2, ht3⟩
    · rw [longestStreakLoop, if_neg h]
      rcases ih 0 b with h1 | ⟨k, hk1, hk2, hk3, hk4⟩ | ⟨t, ht1, ht2, ht3⟩
      · left; exact h1
      · right; right
        refine ⟨rest.take k, ( List.take_prefix k rest).isInfix.trans
          (List.suffix_cons c rest).isInfix, hk3, ?_⟩
        rw [hk4, List.length_take, Nat.min_eq_left hk2]
        omega
      · right; right
        exact ⟨t, ht1.trans (List.suffix_cons c rest).isInfix, ht2, ht3⟩

lemma longestStreak_achieve (v : List Contribution) :
    ∃ t, t <:+: v ∧ allPositive t ∧ t.length = longestStreakLoop v 0 0 := by
  rcases longestStreakLoop_achieve v 0 0 with h1 | ⟨k, _, hk2, hk3, hk4⟩ |
    ⟨t, ht1, ht2, ht3⟩
  · exact ⟨[], List.nil_infix, fun c hc => absurd hc (List.not_mem_nil c),
      by rw [h1]; rfl⟩
  · refine ⟨v.take k, ( List.take_prefix k v).isInfix, hk3, ?_⟩
    rw [hk4, List.length_take, Nat.min_eq_left hk2]
    omega
  · exact ⟨t, ht1, ht2, ht3.symm⟩

lemma longestStreak_maximal (v t : List Contribution) (ht : t <:+: v)
    (hp : allPositive t) : t.length ≤ longestStreakLoop v 0 0 := by
  obtain ⟨p, s, hps⟩ := ht
  rw [← hps]
  exact longestStreakLoop_maximal p t s 0 0 hp

lemma validContribs_perm (today : String) (l : List Contribution) :
    (validContribsOf today l).Perm (l.filter (fun c => decide (c.date ≤ today))) :=
  List.mergeSort_perm _ _

lemma validContribs_sorted (today : String) (l : List Contribution) :
    List.Pairwise (fun a b : Contribution => a.date ≤ b.date)
      (validContribsOf today l) := by
  have htrans : ∀ a b c : Contribution,
      decide (a.date ≤ b.date) = true → decide (b.date ≤ c.date) = true →
      decide (a.date ≤ c.date) = true := by
    intro a b c h1 h2
    simp only [decide_eq_true_eq] at *
    exact le_trans h1 h2
  have htotal : ∀ a b : Contribution,
      (decide (a.date ≤ b.date) || decide (b.date ≤ a.date)) = true := by
    intro a b
    simp only [Bool.or_eq_true, decide_eq_true_eq]
    exact le_total _ _
  exact (List.sorted_mergeSort htrans htotal _).imp (fun h => of_decide_eq_true h)

lemma validContribs_mem (today : String) (l : List Contribution) :
    ∀ c ∈ validContribsOf today l, c.date ≤ today := by
  intro c hc
  rw [validContribsOf, List.mem_mergeSort] at hc
  exact of_decide_eq_true (List.mem_filter.mp hc).2

lemma validContribs_pairwise_ne (today : String) (l : List Contribution)
    (hnd : List.Pairwise (fun a b : Contribution => a.date ≠ b.date) l) :
    List.Pairwise (fun a b : Contribution => a.date ≠ b.date)
      (validContribsOf today l) := by
  have hfil := List.Pairwise.sublist
    (@List.filter_sublist Contribution (fun c => decide (c.date ≤ today)) l) hnd
  exact (List.Perm.pairwise_iff (fun h => h.symm)
    (List.mergeSort_perm (l.filter (fun c => decide (c.date ≤ today))) _)).mpr hfil

/-- C3: on the handler's `validContribs` list `v` (entries dated after today
removed, the rest sorted ascending by date), the computed `currentStreak` is
the count of positive entries in the maximal trailing segment whose entries
are positive or dated today (so a zero-count entry dated today is skipped
without terminating the backward scan and any other zero-count entry
terminates it), and the computed `longestStreak` is achieved by a contiguous
run of positive-count entries of `v` and bounds the length of every such
run. -/
theorem github_streaks_spec (today : String) (contributions : List Contribution) :
    (validContribsOf today contributions).Perm
        (contributions.filter (fun c => decide (c.date ≤ today)))
    ∧ (∀ c ∈ validContribsOf today contributions, c.date ≤ today)
    ∧ List.Pairwise (fun a b : Contribution => a.date ≤ b.date)
        (validContribsOf today contributions)
    ∧ currentStreakOf today contributions =
        trailingScanCount today (validContribsOf today contributions)
    ∧ (∃ t, t <:+: validContribsOf today contributions ∧ allPositive t ∧
        t.length = longestStreakOf today contributions)
    ∧ (∀ t, t <:+: validContribsOf today contributions → allPositive t →
        t.length ≤ longestStreakOf today contributions) := by
  refine ⟨validContribs_perm today contributions, validContribs_mem today contributions,
    validContribs_sorted today contributions, ?_,
    longestStreak_achieve (validContribsOf today contributions),
    fun t ht hp => longestStreak_maximal (validContribsOf today contributions) t ht hp⟩
  rw [currentStreakOf, backwardStreak_eq_trailing]
  rfl

/-- Witness for `github_streaks_spec`: a single positive entry dated today is
a positive run of `validContribs` whose length is bounded by the computed
longest streak. -/
theorem github_streaks_spec_witness :
    ([⟨"2026-10-12", (2 : Int)⟩] : List Contribution).length ≤
      longestStreakOf "2026-10-12" [⟨"2026-10-12", 2⟩] := by
  have hle : ("2026-10-12" : String) ≤ "2026-10-12" := le_refl _
  have hfil : ([⟨"2026-10-12", (2 : Int)⟩] : List Contribution).filter
      (fun c => decide (c.date ≤ "2026-10-12")) = [⟨"2026-10-12", 2⟩] := by
    simp [List.filter_cons, hle]
  have hv : validContribsOf "2026-10-12" [⟨"2026-10-12", (2 : Int)⟩] =
      [⟨"2026-10-12", 2⟩] := by
    rw [validContribsOf, hfil, List.mergeSort_singleton]
  refine (github_streaks_spec "2026-10-12" [⟨"2026-10-12", 2⟩]).2.2.2.2.2
    [⟨"2026-10-12", 2⟩] (by rw [hv]) ?_
  intro c hc
  rw [List.mem_singleton] at hc
  subst hc
  decide

lemma takeWhile_cond_of_not_today (today : String) :
    ∀ l : List Contribution, (∀ x ∈ l, x.date ≠ today) →
      l.takeWhile (fun c => decide (0 < c.count) || decide (c.date = today)) =
        l.takeWhile (fun c => decide (0 < c.count)) := by
  intro l
  induction l with
  | nil => intro _; rfl
  | cons y ys ih =>
    intro h
    have hy : y.date ≠ today := h y (List.mem_cons_self y ys)
    by_cases hp : 0 < y.count
    · rw [List.takeWhile_cons, List.takeWhile_cons, if_pos (by simp [hp]),
        if_pos (by simpa using hp), ih (fun x hx => h x (List.mem_cons_of_mem y hx))]
    · rw [List.takeWhile_cons, List.takeWhile_cons, if_neg (by simp [hp, hy]),
        if_neg (by simpa using hp)]

/-- If no entry of `v` before the last one is dated today, the backward scan
count is bounded by the longest streak: the positives it counts form a
contiguous run of `v` (either the trailing run, or the run just before a
last entry that is skipped). -/
lemma trailingScan_le_longest (today : String) (v : List Contribution)
    (hlast : ∀ c ∈ v.dropLast, c.date ≠ today) :
    trailingScanCount today v ≤ longestStreakLoop v 0 0 := by
  cases hrv : v.reverse with
  | nil =>
    rw [trailingScanCount, hrv]
    exact Nat.zero_le _
  | cons c rest =>
    have hv : v = rest.reverse ++ [c] := by
      have h1 : v = (c :: rest).reverse := by rw [← hrv, List.reverse_reverse]
      rw [h1, List.reverse_cons]
    have hdrop : v.dropLast = rest.reverse := by rw [hv, List.dropLast_concat]
    have hrest : ∀ x ∈ rest, x.date ≠ today := by
      intro x hx
      exact hlast x (by rw [hdrop]; exact List.mem_reverse.mpr hx)
    rw [trailingScanCount, hrv, List.takeWhile_cons]
    by_cases hc : (decide (0 < c.count) || decide (c.date = today)) = true
    case neg =>
      rw [if_neg hc]
      exact Nat.zero_le _
    rw [if_pos hc, takeWhile_cond_of_not_today today rest hrest]
    have ht0pos : allPositive (rest.takeWhile (fun c => decide (0 < c.count))) := by
      intro x hx
      have h := List.mem_takeWhile_imp hx
      exact of_decide_eq_true h
    obtain ⟨s2, hs2⟩ := List.takeWhile_prefix
      (l := rest) (fun c => decide (0 < c.count))
    have hcount : (rest.takeWhile (fun c => decide (0 < c.count))).countP
        (fun c => decide (0 < c.count)) =
        (rest.takeWhile (fun c => decide (0 < c.count))).length :=
      List.countP_eq_length.mpr (fun x hx => decide_eq_true (ht0pos x hx))
    by_cases hp : 0 < c.count
    · rw [List.countP_cons, if_pos (by simpa using hp), hcount]
      have hrun : ((rest.takeWhile (fun c => decide (0 < c.count))).reverse ++ [c])
          <:+: v := by
        refine ⟨s2.reverse, [], ?_⟩
        rw [hv]
        conv_rhs => rw [← hs2]
        simp [List.reverse_append]
      have hposrun : allPositive
          ((rest.takeWhile (fun c => decide (0 < c.count))).reverse ++ [c]) := by
        intro x hx
        rw [List.mem_append] at hx
        rcases hx with hx | hx
        · exact ht0pos x (List.mem_reverse.mp hx)
        · rw [List.mem_singleton] at hx
          subst hx
          exact hp
      have hb := longestStreak_maximal v _ hrun hposrun
      rw [List.length_append, List.length_reverse, List.length_singleton] at hb
      omega
    · rw [List.countP_cons, if_neg (by simpa using hp), hcount]
      have hrun : (rest.takeWhile (fun c => decide (0 < c.count))).reverse <:+: v := by
        refine ⟨s2.reverse, [c], ?_⟩
        rw [hv]
        conv_rhs => rw [← hs2]
        simp [List.reverse_append]
      have hposrun : allPositive
          (rest.takeWhile (fun c => decide (0 < c.count))).reverse :=
        fun x hx => ht0pos x (List.mem_reverse.mp hx)
      have hb := longestStreak_maximal v _ hrun hposrun
      rw [List.length_reverse] at hb
      omega

/-- In a list sorted ascending by date, with pairwise-distinct dates, all of
them ≤ today, no entry before the last is dated today. -/
lemma dropLast_not_today (today : String) (v : List Contribution)
    (hsorted : List.Pairwise (fun a b : Contribution => a.date ≤ b.date) v)
    (hnd : List.Pairwise (fun a b : Contribution => a.date ≠ b.date) v)
    (hmem : ∀ c ∈ v, c.date ≤ today) :
    ∀ c ∈ v.dropLast, c.date ≠ today := by
  intro c hc
  by_cases hvnil : v = []
  · subst hvnil
    simp at hc
  · have hsplit : v.dropLast ++ [v.getLast hvnil] = v :=
      List.dropLast_append_getLast hvnil
    have h1 : c.date ≤ (v.getLast hvnil).date := by
      have h := hsorted
      rw [← hsplit, List.pairwise_append] at h
      exact h.2.2 c hc _ (List.mem_singleton_self _)
    have h2 : c.date ≠ (v.getLast hvnil).date := by
      have h := hnd
      rw [← hsplit, List.pairwise_append] at h
      exact h.2.2 c hc _ (List.mem_singleton_self _)
    have h3 : (v.getLast hvnil).date ≤ today := hmem _ (List.getLast_mem hvnil)
    intro hcon
    have h4 : (v.getLast hvnil).date = today := le_antisymm h3 (hcon ▸ h1)
    exact h2 (by rw [hcon, h4])

/-- C10: given pairwise-distinct date strings, the computed streaks satisfy
0 ≤ currentStreak ≤ longestStreak ≤ number of entries not dated after
today. -/
theorem github_streak_invariant (today : String) (contributions : List Contribution)
    (hdistinct : List.Pairwise (fun a b : Contribution => a.date ≠ b.date)
      contributions) :
    0 ≤ currentStreakOf today contributions
    ∧ currentStreakOf today contributions ≤ longestStreakOf today contributions
    ∧ longestStreakOf today contributions ≤
        (contributions.filter (fun c => decide (c.date ≤ today))).length := by
  refine ⟨Nat.zero_le _, ?_, ?_⟩
  · have heq : currentStreakOf today contributions =
        trailingScanCount today (validContribsOf today contributions) := by
      rw [currentStreakOf, backwardStreak_eq_trailing]
      rfl
    rw [heq]
    exact trailingScan_le_longest today (validContribsOf today contributions)
      (dropLast_not_today today (validContribsOf today contributions)
        (validContribs_sorted today contributions)
        (validContribs_pairwise_ne today contributions hdistinct)
        (validContribs_mem today contributions))
  · obtain ⟨t, ht, _, hlen⟩ := longestStreak_achieve (validContribsOf today contributions)
    calc longestStreakOf today contributions = t.length := hlen.symm
      _ ≤ (validContribsOf today contributions).length := List.IsInfix.length_le ht
      _ = (contributions.filter (fun c => decide (c.date ≤ today))).length :=
        List.length_mergeSort _

/-- Witness for `github_streak_invariant`: on a single positive entry dated
today (dates trivially pairwise-distinct), currentStreak ≤ longestStreak. -/
theorem github_streak_invariant_witness :
    currentStreakOf "2026-10-12" [⟨"2026-10-12", (2 : Int)⟩] ≤
      longestStreakOf "2026-10-12" [⟨"2026-10-12", 2⟩] :=
  (github_streak_invariant "2026-10-12" [⟨"2026-10-12", 2⟩] (by simp)).2.1

end Portfolio

